import Mathlib

/-!
Verification of the intelligence layer of an automation MCP server:
the risk classifier (`analyzeScriptSafety` / `executeAppleScript` gating in
`src/tools/execute.ts`), the execution pattern store (`pattern-store.ts`),
and the failure analyzer (`analyzer.ts`).

The TypeScript code is embedded shallowly: regular expressions become a
small backtracking matcher over lists of characters, the JS `Map`-backed
store becomes explicit state passing over lists, and the asynchronous
file persistence (a write-through of the in-memory state after every
mutation) is dropped since it only mirrors the in-memory state modelled
here.  Record ids, produced in the source by `Date.now()` plus a random
suffix as opaque unique tokens, are modelled as a counter carried in the
store state; timestamps are passed in explicitly.
-/

namespace AppleScriptMcp

/-! ## Character classes (JS regex semantics) -/

/-- JS regex `\w`: ASCII letters, digits, underscore. -/
def isWordChar (c : Char) : Bool :=
  ('a' ≤ c && c ≤ 'z') || ('A' ≤ c && c ≤ 'Z') || ('0' ≤ c && c ≤ '9') || c = '_'

/-- JS regex `\s` (the ASCII part; the scripts under analysis are ASCII). -/
def isJsSpace (c : Char) : Bool :=
  c = ' ' || c = '\t' || c = '\n' || c = '\r' || c = '\x0b' || c = '\x0c'

/-- JS `toLowerCase`, character-wise. -/
def toLowerStr (s : String) : String := String.mk (s.toList.map Char.toLower)

/-- JS `trim`: drop whitespace from both ends. -/
def jsTrim (s : String) : String :=
  String.mk (((s.toList.dropWhile isJsSpace).reverse.dropWhile isJsSpace).reverse)

/-! ## A small backtracking matcher for the regexes used by the source

Pattern constructors cover exactly the constructs appearing in the
source's regex literals: case-insensitive literals, `\s+`, `\b`,
sequencing, alternation, `(...)?`, `.*` (not crossing newlines) and
`[^c]*`. -/

inductive Pat where
  | lit : String → Pat
  | wsPlus : Pat
  | wordB : Pat
  | seq : Pat → Pat → Pat
  | alt : Pat → Pat → Pat
  | opt : Pat → Pat
  | anyStar : Pat
  | notCharStar : Char → Pat

/-- Consume a case-insensitive literal; returns the last consumed original
character (for later word-boundary tests) and the rest of the input. -/
def consumeLit : List Char → Option Char → List Char → Option (Option Char × List Char)
  | [], prev, input => some (prev, input)
  | _ :: _, _, [] => none
  | l :: ls, _, c :: cs => if c.toLower = l.toLower then consumeLit ls (some c) cs else none

/-- All ways to consume one or more whitespace characters. -/
def wsSplits : Option Char → List Char → List (Option Char × List Char)
  | _, [] => []
  | _, c :: cs => if isJsSpace c then (some c, cs) :: wsSplits (some c) cs else []

/-- All ways to consume zero or more non-newline characters (JS `.*`). -/
def anySplits : Option Char → List Char → List (Option Char × List Char)
  | prev, [] => [(prev, [])]
  | prev, c :: cs => (prev, c :: cs) :: (if c ≠ '\n' then anySplits (some c) cs else [])

/-- All ways to consume zero or more characters different from `b`. -/
def notCharSplits (b : Char) : Option Char → List Char → List (Option Char × List Char)
  | prev, [] => [(prev, [])]
  | prev, c :: cs => (prev, c :: cs) :: (if c ≠ b then notCharSplits b (some c) cs else [])

/-- JS `\b`: the word-char status changes between the previous character
and the next one. -/
def atBoundary (prev : Option Char) (input : List Char) : Bool :=
  let pw := match prev with | none => false | some c => isWordChar c
  let nw := match input with | [] => false | c :: _ => isWordChar c
  pw != nw

/-- All match continuations of a pattern against the input, given the
previous character. -/
def matchPat : Pat → Option Char → List Char → List (Option Char × List Char)
  | .lit s, prev, input =>
    match consumeLit s.toList prev input with
    | some st => [st]
    | none => []
  | .wsPlus, prev, input => wsSplits prev input
  | .wordB, prev, input => if atBoundary prev input then [(prev, input)] else []
  | .seq a b, prev, input => (matchPat a prev input).flatMap (fun st => matchPat b st.1 st.2)
  | .alt a b, prev, input => matchPat a prev input ++ matchPat b prev input
  | .opt a, prev, input => (prev, input) :: matchPat a prev input
  | .anyStar, prev, input => anySplits prev input
  | .notCharStar b, prev, input => notCharSplits b prev input

/-- Unanchored search from every start position (JS `RegExp.test`). -/
def searchFrom (p : Pat) : Option Char → List Char → Bool
  | prev, [] => !(matchPat p prev []).isEmpty
  | prev, c :: cs => !(matchPat p prev (c :: cs)).isEmpty || searchFrom p (some c) cs

/-- `p.test s`: does the pattern match anywhere in `s`? -/
def Pat.test (p : Pat) (s : String) : Bool := searchFrom p none s.toList

/-- Right-nested sequence of patterns. -/
def pseq : List Pat → Pat
  | [] => .lit ""
  | [p] => p
  | p :: ps => .seq p (pseq ps)

/-- Right-nested alternation of patterns. -/
def palt : List Pat → Pat
  | [] => .lit ""
  | [p] => p
  | p :: ps => .alt p (palt ps)

/-! ## Risk classifier (`src/tools/execute.ts`) -/

/-- The five-valued risk enum of `SafetyAnalysis['risk']`. -/
inductive Risk where
  | none | low | medium | high | critical
deriving DecidableEq, Repr

/-- Position in the `riskOrder` array of the source. -/
def Risk.idx : Risk → Nat
  | .none => 0
  | .low => 1
  | .medium => 2
  | .high => 3
  | .critical => 4

/-- `SafetyAnalysis` of `execute.ts`. -/
structure SafetyAnalysis where
  safe : Bool
  risk : Risk
  warnings : List String
  requiresConfirmation : Bool
deriving DecidableEq, Repr

/-- One entry of `DANGEROUS_PATTERNS`. -/
structure DangerEntry where
  pattern : Pat
  risk : Risk
  warning : String

/-- The `DANGEROUS_PATTERNS` table of `execute.ts`, in source order. -/
def DANGEROUS_PATTERNS : List DangerEntry := [
  -- /\bdelete\s+(every|all)\s+(file|folder|item|document)/i
  { pattern := pseq [.wordB, .lit "delete", .wsPlus, palt [.lit "every", .lit "all"], .wsPlus,
      palt [.lit "file", .lit "folder", .lit "item", .lit "document"]],
    risk := .critical,
    warning := "BULK DELETE: This will delete multiple files/folders. This action may be irreversible." },
  -- /\bdelete\s+(file|folder|item|document)/i
  { pattern := pseq [.wordB, .lit "delete", .wsPlus,
      palt [.lit "file", .lit "folder", .lit "item", .lit "document"]],
    risk := .high,
    warning := "DELETE: This will delete a file or folder. Items go to Trash but verify before running." },
  -- /\bempty\s+(the\s+)?trash/i
  { pattern := pseq [.wordB, .lit "empty", .wsPlus, .opt (pseq [.lit "the", .wsPlus]), .lit "trash"],
    risk := .critical,
    warning := "EMPTY TRASH: This permanently deletes all items in Trash. This cannot be undone." },
  -- /\bmove\s+(every|all)\s+(file|folder|item)/i
  { pattern := pseq [.wordB, .lit "move", .wsPlus, palt [.lit "every", .lit "all"], .wsPlus,
      palt [.lit "file", .lit "folder", .lit "item"]],
    risk := .high,
    warning := "BULK MOVE: This will move multiple files/folders. Verify the destination." },
  -- /\bduplicate\s+(every|all)\s+(file|folder|item)/i
  { pattern := pseq [.wordB, .lit "duplicate", .wsPlus, palt [.lit "every", .lit "all"], .wsPlus,
      palt [.lit "file", .lit "folder", .lit "item"]],
    risk := .medium,
    warning := "BULK DUPLICATE: This will create copies of multiple items. May use significant disk space." },
  -- /\b(shutdown|restart|sleep)\b/i
  { pattern := pseq [.wordB, palt [.lit "shutdown", .lit "restart", .lit "sleep"], .wordB],
    risk := .high,
    warning := "SYSTEM POWER: This will shutdown, restart, or sleep your Mac." },
  -- /\bdo\s+shell\s+script\b/i
  { pattern := pseq [.wordB, .lit "do", .wsPlus, .lit "shell", .wsPlus, .lit "script", .wordB],
    risk := .high,
    warning := "SHELL COMMAND: This executes a shell command. Review carefully for dangerous operations like rm, sudo, etc." },
  -- /\bdo\s+shell\s+script\s+"[^"]*\b(rm|sudo|chmod|chown|mkfs|dd|format)\b/i
  { pattern := pseq [.wordB, .lit "do", .wsPlus, .lit "shell", .wsPlus, .lit "script", .wsPlus,
      .lit "\"", .notCharStar '"', .wordB,
      palt [.lit "rm", .lit "sudo", .lit "chmod", .lit "chown", .lit "mkfs", .lit "dd", .lit "format"],
      .wordB],
    risk := .critical,
    warning := "DANGEROUS SHELL COMMAND: Contains potentially destructive shell commands (rm, sudo, etc.)." },
  -- /\bkeystroke\b/i
  { pattern := pseq [.wordB, .lit "keystroke", .wordB],
    risk := .medium,
    warning := "KEYSTROKE: This simulates keyboard input. Ensure the target app is correct." },
  -- /\bkey\s+code\b/i
  { pattern := pseq [.wordB, .lit "key", .wsPlus, .lit "code", .wordB],
    risk := .medium,
    warning := "KEY CODE: This simulates key presses. Verify target application focus." },
  -- /\bsend\s+(every|all)\s+(message|mail|email)/i
  { pattern := pseq [.wordB, .lit "send", .wsPlus, palt [.lit "every", .lit "all"], .wsPlus,
      palt [.lit "message", .lit "mail", .lit "email"]],
    risk := .critical,
    warning := "BULK EMAIL: This will send multiple emails. Verify recipients and content." },
  -- /\bsend\b.*\boutgoing\s+message\b/i
  { pattern := pseq [.wordB, .lit "send", .wordB, .anyStar, .wordB, .lit "outgoing", .wsPlus,
      .lit "message", .wordB],
    risk := .medium,
    warning := "SEND EMAIL: This will send an email. Verify recipient and content." },
  -- /\bdelete\s+(every|all)\s+(event|reminder|calendar)/i
  { pattern := pseq [.wordB, .lit "delete", .wsPlus, palt [.lit "every", .lit "all"], .wsPlus,
      palt [.lit "event", .lit "reminder", .lit "calendar"]],
    risk := .critical,
    warning := "BULK DELETE CALENDAR: This will delete multiple calendar events or reminders." },
  -- /\bdelete\s+(every|all)\s+(note|contact)/i
  { pattern := pseq [.wordB, .lit "delete", .wsPlus, palt [.lit "every", .lit "all"], .wsPlus,
      palt [.lit "note", .lit "contact"]],
    risk := .critical,
    warning := "BULK DELETE: This will delete multiple notes or contacts." },
  -- /\bquit\s+(every|all)\s+application/i
  { pattern := pseq [.wordB, .lit "quit", .wsPlus, palt [.lit "every", .lit "all"], .wsPlus,
      .lit "application"],
    risk := .high,
    warning := "QUIT ALL APPS: This will quit multiple applications. Unsaved work may be lost." }
]

/-- The accumulator update of `analyzeScriptSafety`'s loop: push the warning
of a matching entry and raise the running maximum risk when the entry's
risk sits strictly later in `riskOrder`. -/
def safetyStep (script : String) (acc : List String × Risk) (e : DangerEntry) : List String × Risk :=
  if e.pattern.test script then
    (acc.1 ++ [e.warning], if acc.2.idx < e.risk.idx then e.risk else acc.2)
  else acc

/-- `analyzeScriptSafety` of `execute.ts`. -/
def analyzeScriptSafety (script : String) : SafetyAnalysis :=
  let r := DANGEROUS_PATTERNS.foldl (safetyStep script) ([], Risk.none)
  { safe := r.2 == Risk.none || r.2 == Risk.low
    risk := r.2
    warnings := r.1
    requiresConfirmation := r.2 == Risk.high || r.2 == Risk.critical }

/-! ## `executeAppleScript` gating (`src/tools/execute.ts`)

The function is modelled up to the boundary with the external process
executor: the outcome `execute` records that control reaches the
`runScript` call (with the clamped timeout), the other outcomes are the
early returns of the source. -/

/-- The `data` object attached to a blocked response. -/
structure BlockedData where
  stdout : String
  stderr : String
  exitCode : Int
  safetyAnalysis : SafetyAnalysis
deriving DecidableEq, Repr

/-- Outcome of `executeAppleScript` up to the external executor call. -/
inductive ExecOutcome where
  | err : String → ExecOutcome
  | blocked : String → BlockedData → ExecOutcome
  | execute : Nat → SafetyAnalysis → ExecOutcome
deriving DecidableEq, Repr

/-- Is the outcome an error response (`success: false`), i.e. anything but
reaching the external executor? -/
def ExecOutcome.isErrorResult : ExecOutcome → Bool
  | .err _ => true
  | .blocked _ _ => true
  | .execute _ _ => false

/-- The bulleted warning list interpolated into the refusal messages. -/
def warningBullets (ws : List String) : String :=
  String.intercalate "\n" (ws.map (fun w => "• " ++ w))

/-- The refusal message of the critical-risk block. -/
def criticalBlockMsg (a : SafetyAnalysis) : String :=
  "🛑 BLOCKED: This script contains critical-risk operations:\n\n" ++
    warningBullets a.warnings ++
    "\n\nIf you really want to run this, set confirmedDangerous: true"

/-- The refusal message of the high-risk block. -/
def highRiskMsg (a : SafetyAnalysis) : String :=
  "⚠️ WARNING: This script contains high-risk operations:\n\n" ++
    warningBullets a.warnings ++
    "\n\nTo proceed, set confirmedDangerous: true"

/-- The `data` object of a blocked response. -/
def blockedData (a : SafetyAnalysis) : BlockedData :=
  { stdout := "", stderr := "", exitCode := -1, safetyAnalysis := a }

/-- `executeAppleScript` of `execute.ts` (validation, safety gating and
timeout clamping; the actual process execution is external). -/
def executeAppleScript (script : String) (timeout : Nat)
    (skipSafetyCheck : Bool) (confirmedDangerous : Bool) : ExecOutcome :=
  if script = "" then
    .err "Script parameter is required and must be a string"
  else if (jsTrim script).length = 0 then
    .err "Script cannot be empty"
  else
    let safetyAnalysis := analyzeScriptSafety script
    if safetyAnalysis.risk = .critical && !confirmedDangerous then
      .blocked (criticalBlockMsg safetyAnalysis) (blockedData safetyAnalysis)
    else if safetyAnalysis.risk = .high && !confirmedDangerous && !skipSafetyCheck then
      .blocked (highRiskMsg safetyAnalysis) (blockedData safetyAnalysis)
    else
      .execute (min (max timeout 1000) 300000) safetyAnalysis

/-! ## Pattern store (`src/learning/pattern-store.ts`) -/

/-- The closed category set of `ExecutionRecord['category']`. -/
inductive Category where
  | media | files | communication | productivity | system | other
deriving DecidableEq, Repr

/-- `ExecutionRecord` of `pattern-store.ts`; ids are the store's counter
values, timestamps the caller-supplied clock value. -/
structure ExecutionRecord where
  id : Nat
  timestamp : Nat
  intent : String
  apps : List String
  script : String
  success : Bool
  result : String
  category : Category
  actions : List String
  successCount : Nat
  keywords : List String
deriving DecidableEq, Repr

/-- The in-memory state: the `Map` of records (insertion-ordered, keyed by
`id`) and the four index multi-maps of `PatternIndex`, plus the fresh-id
counter standing in for `generateId`. -/
structure Store where
  patterns : List ExecutionRecord
  byApp : List (String × List Nat)
  byAction : List (String × List Nat)
  byCategory : List (String × List Nat)
  byKeyword : List (String × List Nat)
  nextId : Nat
deriving Repr

/-- The store before any `logExecution` (or after `clearPatterns`). -/
def emptyStore : Store :=
  { patterns := [], byApp := [], byAction := [], byCategory := [], byKeyword := [], nextId := 0 }

/-- The stop-word set of `extractKeywords`. -/
def stopWords : List String :=
  ["the", "a", "an", "to", "from", "in", "on", "at", "of", "for", "with", "and", "or",
   "is", "are", "was", "were", "be", "been", "being", "have", "has", "had", "do", "does",
   "did", "will", "would", "could", "should", "may", "might", "must", "shall", "can",
   "need", "dare", "ought", "used", "it", "its", "this", "that", "these", "those", "i",
   "me", "my", "mine", "we", "us", "our", "ours", "you", "your", "yours", "he", "him",
   "his", "she", "her", "hers", "they", "them", "their", "theirs"]

/-- Split a character list into its maximal whitespace-free runs (JS
`split(/\s+/)` minus the possible leading empty piece, which the length
filter of the only caller discards anyway). -/
def splitWsAux : List Char → List Char → List String
  | acc, [] => if acc.isEmpty then [] else [String.mk acc.reverse]
  | acc, c :: cs =>
    if isJsSpace c then
      if acc.isEmpty then splitWsAux [] cs
      else String.mk acc.reverse :: splitWsAux [] cs
    else splitWsAux (c :: acc) cs

/-- `extractKeywords` of `pattern-store.ts`: lower-case, replace everything
outside `[a-z0-9\s]` by a space, split on whitespace, keep tokens longer
than two characters that are not stop words. -/
def extractKeywords (text : String) : List String :=
  let cleaned := (toLowerStr text).toList.map
    (fun c => if ('a' ≤ c && c ≤ 'z') || ('0' ≤ c && c ≤ '9') || isJsSpace c then c else ' ')
  (splitWsAux [] cleaned).filter (fun w => w.length > 2 && !(stopWords.contains w))

/-- The twelve alternation groups of `extractActions`' regex table, in
source order. -/
def actionWordGroups : List (List String) :=
  [["create", "make", "new"],
   ["delete", "remove", "trash"],
   ["get", "read", "fetch", "retrieve"],
   ["set", "update", "modify", "change"],
   ["play", "pause", "stop", "resume"],
   ["open", "close", "quit", "activate"],
   ["move", "copy", "duplicate"],
   ["send", "email", "message"],
   ["add", "append", "insert"],
   ["search", "find", "locate"],
   ["list", "show", "display"],
   ["save", "export", "write"]]

/-- Try to match `\b(w₁|…|wₙ)\b` at the current position; on success
return the (lower-case) word and the state after it. -/
def tryWordAt (ws : List String) (prev : Option Char) (input : List Char) :
    Option (String × Option Char × List Char) :=
  if atBoundary prev input then
    ws.findSome? (fun w =>
      match consumeLit w.toList prev input with
      | some (p', rest) => if atBoundary p' rest then some (w, p', rest) else none
      | none => none)
  else none

/-- All matches of `\b(w₁|…|wₙ)\b/gi` in string order (lower-cased match
text, which equals the alternative itself). The fuel starts at the input
length and bounds the scan. -/
def scanWords (ws : List String) : Nat → Option Char → List Char → List String
  | 0, _, _ => []
  | _, _, [] => []
  | fuel + 1, prev, c :: cs =>
    match tryWordAt ws prev (c :: cs) with
    | some (w, p', rest) => w :: scanWords ws fuel p' rest
    | none => scanWords ws fuel (some c) cs

/-- `extractActions` of `pattern-store.ts`: all verb matches per group, in
group order, deduplicated preserving first insertion (JS `Set`). -/
def extractActions (script : String) : List String :=
  let found := actionWordGroups.flatMap
    (fun ws => scanWords ws script.toList.length none script.toList)
  found.foldl (fun acc w => if acc.contains w then acc else acc ++ [w]) []

/-- All matches of `/tell application "([^"]+)"/gi`: the captured app
names in original case, scanning left to right past each full match. -/
def scanApps : Nat → List Char → List String
  | 0, _ => []
  | _, [] => []
  | fuel + 1, c :: cs =>
    match consumeLit "tell application \"".toList none (c :: cs) with
    | some (_, rest) =>
      let cap := rest.takeWhile (fun x => x ≠ '"')
      if cap.isEmpty then scanApps fuel cs
      else
        match rest.drop cap.length with
        | '"' :: rest2 => String.mk cap :: scanApps fuel rest2
        | _ => scanApps fuel cs
    | none => scanApps fuel cs

/-- `extractApps` of `pattern-store.ts`. -/
def extractApps (script : String) : List String :=
  scanApps script.toList.length script.toList

/-- `categorize` of `pattern-store.ts`: five fixed rule groups in priority
order, first match wins. -/
def categorize (apps : List String) (actions : List String) : Category :=
  let appSet := apps.map toLowerStr
  if appSet.contains "music" || appSet.contains "tv" || appSet.contains "podcasts" ||
      appSet.contains "photos" then .media
  else if appSet.contains "finder" || actions.contains "move" || actions.contains "copy" ||
      actions.contains "delete" then .files
  else if appSet.contains "mail" || appSet.contains "messages" || appSet.contains "contacts"
    then .communication
  else if appSet.contains "calendar" || appSet.contains "reminders" || appSet.contains "notes"
    then .productivity
  else if appSet.contains "system events" || appSet.contains "system preferences" then .system
  else .other

/-- Collapse every maximal whitespace run to a single space. -/
def collapseWsAux : Bool → List Char → List Char
  | _, [] => []
  | inWs, c :: cs =>
    if isJsSpace c then
      if inWs then collapseWsAux true cs else ' ' :: collapseWsAux true cs
    else c :: collapseWsAux false cs

/-- `normalizeScript` of `pattern-store.ts`: the fingerprint — whitespace
collapsed, trimmed, lower-cased. -/
def normalizeScript (script : String) : String :=
  toLowerStr (jsTrim (String.mk (collapseWsAux false script.toList)))

/-- The duplicate-detection loop of `logExecution`: the first stored record
whose fingerprint equals the incoming script's. -/
def findExisting (patterns : List ExecutionRecord) (script : String) : Option ExecutionRecord :=
  patterns.find? (fun p => normalizeScript p.script == normalizeScript script)

/-- JS `Map.set`: replace the record with the same id in place, or append. -/
def setRecord : List ExecutionRecord → ExecutionRecord → List ExecutionRecord
  | [], r => [r]
  | p :: ps, r => if p.id = r.id then r :: ps else p :: setRecord ps r

/-- Append an id to a bucket of an index (creating the bucket at the end
when absent), as the `if (!index…) index… = []; index….push(id)` pairs do. -/
def pushId : List (String × List Nat) → String → Nat → List (String × List Nat)
  | [], k, i => [(k, [i])]
  | (k', ids) :: t, k, i =>
    if k' = k then (k', ids ++ [i]) :: t else (k', ids) :: pushId t k i

/-- Bucket lookup with the `|| []` default of the source. -/
def lookupIdx (idx : List (String × List Nat)) (key : String) : List Nat :=
  match idx.find? (fun kv => kv.1 == key) with
  | some kv => kv.2
  | none => []

/-- The string key a category uses in `byCategory`. -/
def categoryKey : Category → String
  | .media => "media"
  | .files => "files"
  | .communication => "communication"
  | .productivity => "productivity"
  | .system => "system"
  | .other => "other"

/-- `logExecution` of `pattern-store.ts` as a pure state transition;
`now` is the timestamp `new Date()` would produce. Returns the record the
call resolves with together with the updated store. -/
def logExecution (st : Store) (now : Nat) (intent script : String) (success : Bool)
    (result : String) : ExecutionRecord × Store :=
  let apps := extractApps script
  let actions := extractActions script
  let keywords := extractKeywords (intent ++ " " ++ script)
  let category := categorize apps actions
  match findExisting st.patterns script with
  | some existingPattern =>
    let record : ExecutionRecord :=
      { existingPattern with
        timestamp := now
        success := success
        result := result
        successCount := if success then existingPattern.successCount + 1
                        else existingPattern.successCount }
    (record, { st with patterns := setRecord st.patterns record })
  | none =>
    let record : ExecutionRecord :=
      { id := st.nextId, timestamp := now, intent := intent, apps := apps, script := script,
        success := success, result := result, category := category, actions := actions,
        successCount := if success then 1 else 0, keywords := keywords }
    let byApp := apps.foldl (fun ix a => pushId ix (toLowerStr a) record.id) st.byApp
    let byAction := actions.foldl (fun ix a => pushId ix a record.id) st.byAction
    let byCategory := pushId st.byCategory (categoryKey category) record.id
    let byKeyword := keywords.foldl (fun ix k => pushId ix k record.id) st.byKeyword
    (record,
     { patterns := st.patterns ++ [record], byApp := byApp, byAction := byAction,
       byCategory := byCategory, byKeyword := byKeyword, nextId := st.nextId + 1 })

/-- Stable insertion of `x` into a descending-sorted list: `x` goes before
the first element whose key is not larger, so earlier elements win ties —
the semantics of the (stable) JS `sort` with comparator `b.key - a.key`. -/
def insertDesc (key : α → Nat) (x : α) : List α → List α
  | [] => [x]
  | y :: ys => if key x < key y then y :: insertDesc key x ys else x :: y :: ys

/-- Stable descending sort by a numeric key. -/
def sortByDesc (key : α → Nat) : List α → List α
  | [] => []
  | x :: xs => insertDesc key x (sortByDesc key xs)

/-- The options object of `findSimilarPatterns`; `none` fields mean the
caller omitted them and the `??`-defaults of the source apply. -/
structure FindOptions where
  app : Option String
  action : Option String
  limit : Option Nat
  onlySuccessful : Option Bool
deriving Repr

/-- JS `Set.add` over an insertion-ordered list. -/
def addId (ids : List Nat) (i : Nat) : List Nat :=
  if ids.contains i then ids else ids ++ [i]

/-- Add every element of `l` to the set. -/
def addIds (ids : List Nat) (l : List Nat) : List Nat := l.foldl addId ids

/-- `new Set(l)`. -/
def dedupIds (l : List Nat) : List Nat := addIds [] l

/-- The per-record similarity score of `findSimilarPatterns`: ten points
per stored keyword present among the intent's keywords, plus the success
count. -/
def similarityScore (intent : String) (p : ExecutionRecord) : Nat :=
  (p.keywords.filter (fun k => (extractKeywords intent).contains k)).length * 10 + p.successCount

/-- The candidate-id set of `findSimilarPatterns`: app bucket, intersected
(or seeded) with the action bucket, falling back to keyword-bucket union
when empty, then to all record ids when still empty. -/
def candidateIds (st : Store) (intent : String) (opts : FindOptions) : List Nat :=
  let c1 : List Nat :=
    match opts.app with
    | some a => addIds [] (lookupIdx st.byApp (toLowerStr a))
    | none => []
  let c2 : List Nat :=
    match opts.action with
    | some a =>
      let actionIds := lookupIdx st.byAction (toLowerStr a)
      if c1.length > 0 then dedupIds (actionIds.filter (fun i => c1.contains i))
      else addIds c1 actionIds
    | none => c1
  let c3 :=
    if c2.length = 0 then
      (extractKeywords intent).foldl (fun acc k => addIds acc (lookupIdx st.byKeyword k)) c2
    else c2
  if c3.length = 0 then st.patterns.map (fun p => p.id) else c3

/-- The candidate-collection step of `findSimilarPatterns`' loop: resolve
an id, drop unresolved ids and (when requested) failed records, and attach
the similarity score. -/
def scoreStep (st : Store) (intent : String) (onlySuccessful : Bool)
    (acc : List (ExecutionRecord × Nat)) (i : Nat) : List (ExecutionRecord × Nat) :=
  match st.patterns.find? (fun p => p.id == i) with
  | none => acc
  | some p =>
    if onlySuccessful && !p.success then acc
    else acc ++ [(p, similarityScore intent p)]

/-- `findSimilarPatterns` of `pattern-store.ts`. -/
def findSimilarPatterns (st : Store) (intent : String) (opts : FindOptions) :
    List ExecutionRecord :=
  let limit := opts.limit.getD 5
  let onlySuccessful := opts.onlySuccessful.getD true
  let candidates := (candidateIds st intent opts).foldl (scoreStep st intent onlySuccessful) []
  ((sortByDesc (fun pr => pr.2) candidates).take limit).map (fun pr => pr.1)

/-- `getPatternsForApp` of `pattern-store.ts`: the app's bucket resolved to
records, sorted by success count descending (stable). -/
def getPatternsForApp (st : Store) (app : String) : List ExecutionRecord :=
  let appIds := lookupIdx st.byApp (toLowerStr app)
  sortByDesc (fun p => p.successCount)
    (appIds.filterMap (fun i => st.patterns.find? (fun p => p.id == i)))

/-! ## Failure analyzer (`src/learning/analyzer.ts`) -/

/-- The closed error taxonomy `ErrorType`. -/
inductive ErrorType where
  | permissionDenied
  | appNotRunning
  | syntaxError
  | objectNotFound
  | propertyNotFound
  | commandNotUnderstood
  | timeout
  | typeMismatch
  | indexOutOfBounds
  | missingValue
  | userCancelled
  | unknown
deriving DecidableEq, Repr

/-- `FailureAnalysis['confidence']`. -/
inductive Confidence where
  | high | medium | low
deriving DecidableEq, Repr

/-- `FailureAnalysis` of `analyzer.ts`. -/
structure FailureAnalysis where
  errorType : ErrorType
  rootCause : String
  suggestions : List String
  relatedSuccessfulPattern : Option String
  fixedScript : Option String
  confidence : Confidence
deriving DecidableEq, Repr

/-- Consume a case-insensitive literal prefix, or fail. -/
def dropCiLit : List Char → List Char → Option (List Char)
  | [], input => some input
  | _ :: _, [] => none
  | l :: ls, c :: cs => if c.toLower = l.toLower then dropCiLit ls cs else none

/-- First match of `/lit([^stopc]+)/i`: the nonempty capture after the
leftmost occurrence of the literal that is followed by at least one
non-`stopc` character. -/
def captureAfter (lit : List Char) (stopc : Char) : List Char → Option String
  | [] => none
  | c :: cs =>
    match dropCiLit lit (c :: cs) with
    | some rest =>
      let cap := rest.takeWhile (fun x => x ≠ stopc)
      if cap.isEmpty then captureAfter lit stopc cs else some (String.mk cap)
    | none => captureAfter lit stopc cs

/-- Backtracking tail of `/([^"]+)"? message/i`: try capture lengths from
`k` down to one against the greedy non-quote run `m`. -/
def capThenMessageAux (m : List Char) (afterMax : List Char) : Nat → Option String
  | 0 => none
  | k + 1 =>
    let cap := m.take (k + 1)
    let rest2 := m.drop (k + 1) ++ afterMax
    if (dropCiLit " message".toList rest2).isSome then some (String.mk cap)
    else
      match rest2 with
      | '"' :: r3 =>
        if (dropCiLit " message".toList r3).isSome then some (String.mk cap)
        else capThenMessageAux m afterMax k
      | _ => capThenMessageAux m afterMax k

/-- Match `/([^"]+)"? message/i` at the start of `l`. -/
def capThenMessage (l : List Char) : Option String :=
  let m := l.takeWhile (fun c => c ≠ '"')
  capThenMessageAux m (l.drop m.length) m.length

/-- The capture of `/doesn't understand the "?([^"]+)"? message/i`. -/
def cmdCapture : List Char → Option String
  | [] => none
  | c :: cs =>
    match dropCiLit "doesn't understand the ".toList (c :: cs) with
    | some rest =>
      (match rest with
       | '"' :: r2 =>
         (match capThenMessage r2 with
          | some s => some s
          | none => cmdCapture cs)
       | _ =>
         (match capThenMessage rest with
          | some s => some s
          | none => cmdCapture cs))
    | none => cmdCapture cs

/-- Backtracking tail of `/([^"]+) into type ([^.]+)/i`. -/
def makeIntoAux (m : List Char) (afterMax : List Char) : Nat → Option (String × String)
  | 0 => none
  | k + 1 =>
    let cap := m.take (k + 1)
    let rest2 := m.drop (k + 1) ++ afterMax
    match dropCiLit " into type ".toList rest2 with
    | some rest3 =>
      let cap2 := rest3.takeWhile (fun x => x ≠ '.')
      if cap2.isEmpty then makeIntoAux m afterMax k
      else some (String.mk cap, String.mk cap2)
    | none => makeIntoAux m afterMax k

/-- The captures of `/can't make ([^"]+) into type ([^.]+)/i`. -/
def makeIntoCapture : List Char → Option (String × String)
  | [] => none
  | c :: cs =>
    match dropCiLit "can't make ".toList (c :: cs) with
    | some rest =>
      let m := rest.takeWhile (fun x => x ≠ '"')
      (match makeIntoAux m (rest.drop m.length) m.length with
       | some r => some r
       | none => makeIntoCapture cs)
    | none => makeIntoCapture cs

/-- `extractAppFromScript` of `analyzer.ts`: the first
`tell application "…"` capture. -/
def extractAppFromScript (script : String) : Option String :=
  (extractApps script).head?

/-- Index of the last newline in a character list. -/
def lastNewlinePosAux : Nat → Option Nat → List Char → Option Nat
  | _, best, [] => best
  | i, best, c :: cs => lastNewlinePosAux (i + 1) (if c = '\n' then some i else best) cs

/-- Index of the last newline in a character list. -/
def lastNewlinePos (l : List Char) : Option Nat := lastNewlinePosAux 0 none l

/-- Match `/(tell application "[^"]+")\s*\n/i` at the start of the input:
returns the captured header and the rest after the whole match (the
greedy `\s*` runs to the last newline of the whitespace run). -/
def tryTellAt (input : List Char) : Option (List Char × List Char) :=
  match dropCiLit "tell application \"".toList input with
  | some rest =>
    let cap := rest.takeWhile (fun x => x ≠ '"')
    if cap.isEmpty then none
    else
      match rest.drop cap.length with
      | '"' :: rest2 =>
        let run := rest2.takeWhile isJsSpace
        (match lastNewlinePos run with
         | some i =>
           some (input.take ("tell application \"".toList.length + cap.length + 1),
                 rest2.drop (i + 1))
         | none => none)
      | _ => none
  | none => none

/-- Leftmost match of the activation-fix regex: the characters before the
match, the captured header, and the rest after the match. -/
def tellFixScan : List Char → Option (List Char × List Char × List Char)
  | [] => none
  | c :: cs =>
    match tryTellAt (c :: cs) with
    | some (header, after) => some ([], header, after)
    | none =>
      match tellFixScan cs with
      | some (b, header, after) => some (c :: b, header, after)
      | none => none

/-- The `getFix` of the `app_not_running` entry: inject `activate` right
after the first `tell application "…"` header line, replacing the matched
`\s*\n` by a single newline. -/
def appNotRunningFix (script : String) : Option String :=
  match tellFixScan script.toList with
  | some (before, header, after) =>
    some (String.mk (before ++ header ++ '\n' :: '\t' :: ("activate".toList ++ '\n' :: after)))
  | none => none

/-- One entry of `ERROR_PATTERNS`: matchers plus the three generator
functions, each taking the error message and the script. -/
structure ErrorPatternEntry where
  patterns : List Pat
  type : ErrorType
  getCause : String → String → String
  getSuggestions : String → String → List String
  getFix : Option (String → String → Option String)

/-- The `ERROR_PATTERNS` taxonomy of `analyzer.ts`, in source order. -/
def ERROR_PATTERNS : List ErrorPatternEntry := [
  -- Permission errors
  { patterns := [.lit "not allowed", .lit "permission",
      pseq [.lit "access", .anyStar, .lit "denied"], .lit "not authorized", .lit "-1743"],
    type := .permissionDenied,
    getCause := fun _ script =>
      "Automation permission denied for " ++
        ((extractAppFromScript script).getD "the target application") ++ ".",
    getSuggestions := fun _ script =>
      ["Open System Settings → Privacy & Security → Automation",
       "Enable permissions for your terminal/Claude to control " ++
         ((extractAppFromScript script).getD "the app"),
       "If using System Events, also check Accessibility permissions",
       "You may need to restart your terminal after changing permissions"],
    getFix := none },
  -- App not running
  { patterns := [.lit "application isn't running", .lit "not running",
      pseq [.lit "connection", .anyStar, .lit "invalid"], .lit "-600"],
    type := .appNotRunning,
    getCause := fun _ script =>
      ((extractAppFromScript script).getD "The application") ++ " is not running.",
    getSuggestions := fun _ script =>
      ["Launch " ++ ((extractAppFromScript script).getD "the application") ++
         " before running this script",
       "Add \"activate\" at the start of your tell block to launch the app",
       "Use \"launch\" instead of \"activate\" for background operations"],
    getFix := some (fun _ script => appNotRunningFix script) },
  -- Object not found
  { patterns := [.lit "can't get", .lit "doesn't exist", .lit "missing", .lit "-1728"],
    type := .objectNotFound,
    getCause := fun msg _ =>
      ((captureAfter "can't get ".toList '.' msg.toList).getD "the requested object") ++
        " doesn't exist or couldn't be found.",
    getSuggestions := fun _ _ =>
      ["Check if the object exists before accessing it (use \"exists\" test)",
       "The collection might be empty - try checking \"count of\" first",
       "Use \"first\" instead of index 1 for more flexible access",
       "If referencing by name, ensure the name matches exactly"],
    getFix := none },
  -- Command not understood
  { patterns := [.lit "doesn't understand",
      pseq [.lit "expected", .anyStar, .lit "but found"], .lit "-1708"],
    type := .commandNotUnderstood,
    getCause := fun msg script =>
      ((extractAppFromScript script).getD "The app") ++ " doesn't have a \"" ++
        ((cmdCapture msg.toList).getD "that") ++ "\" command.",
    getSuggestions := fun _ script =>
      ["Check the " ++ ((extractAppFromScript script).getD "app") ++
         " dictionary for available commands",
       "Some commands need to be inside a specific context (e.g., \"tell window 1\")",
       "The command might be named differently - check for similar commands",
       "Some operations need System Events instead of the app directly"],
    getFix := none },
  -- Syntax error
  { patterns := [.lit "syntax error",
      pseq [.lit "expected", .anyStar, .lit "but found"], .lit "-2740", .lit "-2741"],
    type := .syntaxError,
    getCause := fun msg _ =>
      "Syntax error: " ++
        (let sub := String.mk (msg.toList.take 100)
         if sub = "" then "invalid AppleScript syntax" else sub),
    getSuggestions := fun _ _ =>
      ["Check for missing \"end tell\", \"end if\", or \"end repeat\"",
       "Verify quotation marks are balanced and properly escaped",
       "AppleScript uses & for concatenation, not +",
       "Make sure \"of\" clauses are in the right order (property of object of container)"],
    getFix := none },
  -- Type mismatch
  { patterns := [pseq [.lit "can't make", .anyStar, .lit "into"], .lit "type mismatch",
      .lit "-1700"],
    type := .typeMismatch,
    getCause := fun msg _ =>
      match makeIntoCapture msg.toList with
      | some (a, b) => "Can't convert " ++ a ++ " to " ++ b ++ "."
      | none => "Type conversion failed.",
    getSuggestions := fun _ _ =>
      ["Use explicit coercion: \"text\" as string, number as integer",
       "Some objects need specific conversion: \"x as list\" or \"x as text\"",
       "Check if you're comparing compatible types"],
    getFix := none },
  -- Index out of bounds
  { patterns := [.lit "invalid index", .lit "-1719"],
    type := .indexOutOfBounds,
    getCause := fun _ _ => "The index is out of range - the collection is smaller than expected.",
    getSuggestions := fun _ _ =>
      ["Check \"count of\" before accessing by index",
       "Use \"first\", \"last\", or \"every\" instead of numeric indices",
       "Remember AppleScript uses 1-based indexing, not 0-based"],
    getFix := none },
  -- Timeout
  { patterns := [.lit "timed out", .lit "-1712"],
    type := .timeout,
    getCause := fun _ _ => "The operation took too long and timed out.",
    getSuggestions := fun _ _ =>
      ["Increase the timeout parameter",
       "The app might be busy or unresponsive - check its state",
       "Break complex operations into smaller steps",
       "Some dialogs block until user interaction - check for open dialogs"],
    getFix := none },
  -- User cancelled
  { patterns := [.lit "user cancel", .lit "-128"],
    type := .userCancelled,
    getCause := fun _ _ => "The operation was cancelled by the user.",
    getSuggestions := fun _ _ =>
      ["This is usually expected - user dismissed a dialog or pressed Escape",
       "Add error handling: try...on error...end try"],
    getFix := none }
]

/-- Does any matcher of the entry fire against the error message? -/
def entryMatches (e : ErrorPatternEntry) (msg : String) : Bool :=
  e.patterns.any (fun p => p.test msg)

/-- The first taxonomy entry whose matcher fires (the double loop of
`analyzeFailure`). -/
def firstMatchingEntry (msg : String) : Option ErrorPatternEntry :=
  ERROR_PATTERNS.find? (fun e => entryMatches e msg)

/-- The best-effort context lookup both branches of `analyzeFailure`
perform: the first successful record among the script's first app's
patterns. -/
def relatedPattern (st : Store) (script : String) : Option String :=
  match extractAppFromScript script with
  | none => none
  | some app =>
    match (getPatternsForApp st app).find? (fun p => p.success) with
    | some p => some p.script
    | none => none

/-- The generic suggestions of the unknown-error branch. -/
def genericSuggestions (app : Option String) : List String :=
  ["Check the app dictionary for correct syntax",
   "Verify the app is running and accessible",
   "Try simplifying the script to isolate the issue",
   match app with
   | some a => "Look at successful patterns for " ++ a
   | none => "Check for similar successful patterns"]

/-- `analyzeFailure` of `analyzer.ts`, with the pattern store passed in
place of the module-level cache it reads through `getPatternsForApp`. -/
def analyzeFailure (st : Store) (script errorMessage : String) : FailureAnalysis :=
  match firstMatchingEntry errorMessage with
  | some e =>
    { errorType := e.type
      rootCause := e.getCause errorMessage script
      suggestions := e.getSuggestions errorMessage script
      relatedSuccessfulPattern := relatedPattern st script
      fixedScript :=
        match e.getFix with
        | some f => f errorMessage script
        | none => none
      confidence := .high }
  | none =>
    { errorType := .unknown
      rootCause := "Unknown error: " ++ errorMessage
      suggestions := genericSuggestions (extractAppFromScript script)
      relatedSuccessfulPattern := relatedPattern st script
      fixedScript := none
      confidence := .low }

/-- The record the create branch of `logExecution` builds. -/
def newRecord (st : Store) (now : Nat) (intent script : String) (success : Bool)
    (result : String) : ExecutionRecord :=
  { id := st.nextId, timestamp := now, intent := intent, apps := extractApps script,
    script := script, success := success, result := result,
    category := categorize (extractApps script) (extractActions script),
    actions := extractActions script,
    successCount := if success then 1 else 0,
    keywords := extractKeywords (intent ++ " " ++ script) }

/-- The in-place update the match branch of `logExecution` performs. -/
def updatedRecord (existing : ExecutionRecord) (now : Nat) (success : Bool)
    (result : String) : ExecutionRecord :=
  { existing with
    timestamp := now
    success := success
    result := result
    successCount := if success then existing.successCount + 1 else existing.successCount }

/-! ## Store invariants and fixtures -/

/-- At most one record per fingerprint (`normalizeScript` of the script). -/
def UniqueFingerprints (st : Store) : Prop :=
  st.patterns.Pairwise (fun a b => normalizeScript a.script ≠ normalizeScript b.script)

/-- The representation invariant the JS `Map` and `generateId` maintain:
distinct record ids, all below the fresh-id counter, plus fingerprint
uniqueness. -/
def WFStore (st : Store) : Prop :=
  (st.patterns.map (fun r => r.id)).Nodup ∧
  (∀ r ∈ st.patterns, r.id < st.nextId) ∧
  UniqueFingerprints st

/-- Stores reachable by a sequence of `logExecution` calls from the empty
store. -/
inductive Reachable : Store → Prop where
  | empty : Reachable emptyStore
  | log : ∀ (st : Store) (now : Nat) (intent script : String) (success : Bool)
      (result : String), Reachable st →
      Reachable (logExecution st now intent script success result).2

/-- A two-record store: a successful Finder `open` pattern and a successful
Music `play` pattern, so the `finder` app bucket and the `play` action
bucket are both nonempty but disjoint. -/
def exampleStore : Store :=
  (logExecution
    (logExecution emptyStore 0 "open home folder"
      "tell application \"Finder\" to open home" true "ok").2
    1 "play some music" "tell application \"Music\" to play" true "ok").2

/-- Does `sub` occur as a prefix of `l`? -/
def charsStartWith : List Char → List Char → Bool
  | [], _ => true
  | _ :: _, [] => false
  | a :: as, b :: bs => a = b && charsStartWith as bs

/-- Does `sub` occur as a contiguous run inside `l`? -/
def containsChars (sub : List Char) : List Char → Bool
  | [] => charsStartWith sub []
  | c :: cs => charsStartWith sub (c :: cs) || containsChars sub cs

/-- Substring containment (JS `String.includes`). -/
def containsStr (s sub : String) : Bool := containsChars sub.toList s.toList

/-! ## Helper lemmas: the classifier fold -/

/-- The running-maximum update of `analyzeScriptSafety`, as a binary
operation on risks. -/
def maxRisk (a b : Risk) : Risk := if a.idx < b.idx then b else a

theorem le_maxRisk_left (a b : Risk) : a.idx ≤ (maxRisk a b).idx := by
  unfold maxRisk
  split
  · omega
  · exact Nat.le_refl _

theorem le_maxRisk_right (a b : Risk) : b.idx ≤ (maxRisk a b).idx := by
  unfold maxRisk
  split
  · exact Nat.le_refl _
  · omega

theorem maxRisk_eq_or (a b : Risk) : maxRisk a b = a ∨ maxRisk a b = b := by
  unfold maxRisk
  split
  · exact Or.inr rfl
  · exact Or.inl rfl

theorem le_foldl_maxRisk (l : List Risk) (m : Risk) :
    m.idx ≤ (l.foldl maxRisk m).idx := by
  induction l generalizing m with
  | nil => exact Nat.le_refl _
  | cons r t ih => exact Nat.le_trans (le_maxRisk_left m r) (ih (maxRisk m r))

theorem mem_le_foldl_maxRisk (l : List Risk) (m : Risk) (r : Risk) (hr : r ∈ l) :
    r.idx ≤ (l.foldl maxRisk m).idx := by
  induction l generalizing m with
  | nil => cases hr
  | cons a t ih =>
    rcases List.mem_cons.mp hr with h | h
    · subst h
      exact Nat.le_trans (le_maxRisk_right m r) (le_foldl_maxRisk t (maxRisk m r))
    · exact ih (maxRisk m a) h

theorem foldl_maxRisk_attained (l : List Risk) (m : Risk) :
    l.foldl maxRisk m = m ∨ l.foldl maxRisk m ∈ l := by
  induction l generalizing m with
  | nil => exact Or.inl rfl
  | cons a t ih =>
    rcases ih (maxRisk m a) with h | h
    · rw [List.foldl_cons, h]
      rcases maxRisk_eq_or m a with h' | h'
      · exact Or.inl h'
      · rw [h']
        exact Or.inr (List.mem_cons_self a t)
    · exact Or.inr (List.mem_cons_of_mem a h)

/-- Unrolling `analyzeScriptSafety`'s loop: the accumulated warnings are
the warnings of the matching entries in table order, and the accumulated
risk is the fold of their risks through the running maximum. -/
theorem safety_foldl (s : String) (l : List DangerEntry) (ws : List String) (m : Risk) :
    l.foldl (safetyStep s) (ws, m) =
      (ws ++ (l.filter (fun e => e.pattern.test s)).map (fun e => e.warning),
       ((l.filter (fun e => e.pattern.test s)).map (fun e => e.risk)).foldl maxRisk m) := by
  induction l generalizing ws m with
  | nil => simp
  | cons e t ih =>
    by_cases h : e.pattern.test s
    · simp [safetyStep, maxRisk, h, ih, List.filter_cons]
    · simp [safetyStep, h, ih, List.filter_cons]

theorem analyzeScriptSafety_risk (s : String) :
    (analyzeScriptSafety s).risk =
      ((DANGEROUS_PATTERNS.filter (fun e => e.pattern.test s)).map
        (fun e => e.risk)).foldl maxRisk Risk.none := by
  unfold analyzeScriptSafety
  rw [safety_foldl]

theorem analyzeScriptSafety_warnings (s : String) :
    (analyzeScriptSafety s).warnings =
      (DANGEROUS_PATTERNS.filter (fun e => e.pattern.test s)).map (fun e => e.warning) := by
  unfold analyzeScriptSafety
  rw [safety_foldl]
  simp

theorem analyzeScriptSafety_safe (s : String) :
    (analyzeScriptSafety s).safe = true ↔
      (analyzeScriptSafety s).risk = Risk.none ∨ (analyzeScriptSafety s).risk = Risk.low := by
  unfold analyzeScriptSafety
  cases (DANGEROUS_PATTERNS.foldl (safetyStep s) ([], Risk.none)).2 <;> simp

theorem analyzeScriptSafety_requiresConfirmation (s : String) :
    (analyzeScriptSafety s).requiresConfirmation = true ↔
      (analyzeScriptSafety s).risk = Risk.high ∨ (analyzeScriptSafety s).risk = Risk.critical := by
  unfold analyzeScriptSafety
  cases (DANGEROUS_PATTERNS.foldl (safetyStep s) ([], Risk.none)).2 <;> simp

/-! ## Claims C1 and C6: the risk classifier -/

/-- C1: for every script, the verdict's risk is the maximum risk (in the
order none < low < medium < high < critical, i.e. by `Risk.idx`) over the
hazard-table entries whose pattern matches — `none` when no entry
matches — and `safe` holds exactly for risk none/low while
`requiresConfirmation` holds exactly for risk high/critical. -/
theorem claim_C1_verdict (script : String) :
    (∀ e ∈ DANGEROUS_PATTERNS, e.pattern.test script = true →
      e.risk.idx ≤ (analyzeScriptSafety script).risk.idx) ∧
    ((analyzeScriptSafety script).risk = Risk.none ∨
      ∃ e ∈ DANGEROUS_PATTERNS, e.pattern.test script = true ∧
        e.risk = (analyzeScriptSafety script).risk) ∧
    ((∀ e ∈ DANGEROUS_PATTERNS, e.pattern.test script = false) →
      (analyzeScriptSafety script).risk = Risk.none) ∧
    ((analyzeScriptSafety script).safe = true ↔
      (analyzeScriptSafety script).risk = Risk.none ∨
        (analyzeScriptSafety script).risk = Risk.low) ∧
    ((analyzeScriptSafety script).requiresConfirmation = true ↔
      (analyzeScriptSafety script).risk = Risk.high ∨
        (analyzeScriptSafety script).risk = Risk.critical) := by
  refine ⟨?_, ?_, ?_, analyzeScriptSafety_safe script,
    analyzeScriptSafety_requiresConfirmation script⟩
  · intro e he htest
    rw [analyzeScriptSafety_risk]
    exact mem_le_foldl_maxRisk _ _ _
      (List.mem_map_of_mem _ (List.mem_filter.mpr ⟨he, htest⟩))
  · rw [analyzeScriptSafety_risk]
    rcases foldl_maxRisk_attained
        ((DANGEROUS_PATTERNS.filter (fun e => e.pattern.test script)).map
          (fun e => e.risk)) Risk.none with h | h
    · exact Or.inl h
    · rcases List.mem_map.mp h with ⟨e, he, hrisk⟩
      rcases List.mem_filter.mp he with ⟨hmem, htest⟩
      exact Or.inr ⟨e, hmem, htest, hrisk⟩
  · intro hnone
    rw [analyzeScriptSafety_risk]
    have : DANGEROUS_PATTERNS.filter (fun e => e.pattern.test script) = [] := by
      apply List.filter_eq_nil_iff.mpr
      intro e he
      simp [hnone e he]
    rw [this]
    rfl

/-- Witness for C1 at concrete scripts: a non-matching script gets risk
`none` (via the no-match conjunct), and the empty-trash hazard entry's
risk bounds the verdict on a script it matches. -/
theorem claim_C1_verdict_witness :
    (analyzeScriptSafety "hello").risk = Risk.none ∧
    Risk.critical.idx ≤ (analyzeScriptSafety "empty the trash").risk.idx :=
  ⟨(claim_C1_verdict "hello").2.2.1 (by decide),
   (claim_C1_verdict "empty the trash").1
     (DANGEROUS_PATTERNS.get ⟨2, by decide⟩)
     (DANGEROUS_PATTERNS.get_mem 2 (by decide))
     (by decide)⟩

/-- C6: for every script, the warnings list is exactly the warning of each
matching hazard-table entry, one per matching entry, in table order (so
every entry is evaluated, and duplicate warning texts coming from
different entries are kept). -/
theorem claim_C6_warnings (script : String) :
    (analyzeScriptSafety script).warnings =
      (DANGEROUS_PATTERNS.filter (fun e => e.pattern.test script)).map
        (fun e => e.warning) :=
  analyzeScriptSafety_warnings script

/-! ## Claim C10: the critical-risk execution block -/

/-- On a critical-risk script without `confirmedDangerous`, the gate
resolves to the same blocked response for any `skipSafetyCheck`. -/
theorem executeAppleScript_critical (script : String) (timeout : Nat) (skip : Bool)
    (hcrit : (analyzeScriptSafety script).risk = Risk.critical) :
    executeAppleScript script timeout skip false =
      if script = "" then .err "Script parameter is required and must be a string"
      else if (jsTrim script).length = 0 then .err "Script cannot be empty"
      else .blocked (criticalBlockMsg (analyzeScriptSafety script))
        (blockedData (analyzeScriptSafety script)) := by
  unfold executeAppleScript
  split
  · rfl
  · split
    · rfl
    · rw [if_pos]
      simp [hcrit]

/-- C10: a script whose safety analysis is critical-risk is never executed
when `confirmedDangerous` is not passed — the result is an error response,
and `skipSafetyCheck` makes no difference to it — while passing
`confirmedDangerous = true` lets a (non-blank) script through to the
executor. -/
theorem claim_C10_critical_block (script : String) (timeout : Nat) (skip : Bool)
    (hcrit : (analyzeScriptSafety script).risk = Risk.critical) :
    (executeAppleScript script timeout skip false).isErrorResult = true ∧
    executeAppleScript script timeout skip false =
      executeAppleScript script timeout (!skip) false ∧
    (¬ (jsTrim script).length = 0 →
      executeAppleScript script timeout skip true =
        ExecOutcome.execute (min (max timeout 1000) 300000) (analyzeScriptSafety script)) := by
  refine ⟨?_, ?_, ?_⟩
  · rw [executeAppleScript_critical script timeout skip hcrit]
    split
    · rfl
    · split
      · rfl
      · rfl
  · rw [executeAppleScript_critical script timeout skip hcrit,
      executeAppleScript_critical script timeout (!skip) hcrit]
  · intro htrim
    have h0 : ¬ script = "" := by
      intro h
      subst h
      exact htrim (by decide)
    unfold executeAppleScript
    rw [if_neg h0, if_neg htrim]
    simp

/-- Witness for C10 at `empty the trash` (critical by the hazard table):
blocked without confirmation regardless of `skipSafetyCheck`, executed
with confirmation. -/
theorem claim_C10_critical_block_witness :
    (executeAppleScript "empty the trash" 30000 true false).isErrorResult = true ∧
    executeAppleScript "empty the trash" 30000 true false =
      executeAppleScript "empty the trash" 30000 false false ∧
    executeAppleScript "empty the trash" 30000 true true =
      ExecOutcome.execute 30000 (analyzeScriptSafety "empty the trash") := by
  have h := claim_C10_critical_block "empty the trash" 30000 true (by decide)
  exact ⟨h.1, h.2.1, h.2.2 (by decide)⟩

/-! ## Helper lemmas: the stable descending sort -/

theorem mem_insertDesc (key : α → Nat) (x a : α) (l : List α) :
    a ∈ insertDesc key x l ↔ a = x ∨ a ∈ l := by
  induction l with
  | nil => simp [insertDesc]
  | cons y ys ih =>
    unfold insertDesc
    split
    · rw [List.mem_cons, ih, List.mem_cons]
      tauto
    · rw [List.mem_cons, List.mem_cons]

theorem pairwise_insertDesc (key : α → Nat) (x : α) (l : List α)
    (h : l.Pairwise (fun a b => key b ≤ key a)) :
    (insertDesc key x l).Pairwise (fun a b => key b ≤ key a) := by
  induction l with
  | nil => simp [insertDesc]
  | cons y ys ih =>
    rw [List.pairwise_cons] at h
    unfold insertDesc
    split
    · rename_i hlt
      rw [List.pairwise_cons]
      refine ⟨?_, ih h.2⟩
      intro b hb
      rcases (mem_insertDesc key x b ys).mp hb with h' | h'
      · subst h'
        omega
      · exact h.1 b h'
    · rename_i hge
      rw [List.pairwise_cons]
      refine ⟨?_, List.pairwise_cons.mpr h⟩
      intro b hb
      rcases List.mem_cons.mp hb with h' | h'
      · subst h'
        omega
      · have := h.1 b h'
        omega

theorem sortByDesc_pairwise (key : α → Nat) (l : List α) :
    (sortByDesc key l).Pairwise (fun a b => key b ≤ key a) := by
  induction l with
  | nil => exact List.Pairwise.nil
  | cons x xs ih => exact pairwise_insertDesc key x _ ih

theorem mem_sortByDesc (key : α → Nat) (a : α) (l : List α) :
    a ∈ sortByDesc key l ↔ a ∈ l := by
  induction l with
  | nil => simp [sortByDesc]
  | cons x xs ih =>
    unfold sortByDesc
    rw [mem_insertDesc, ih, List.mem_cons]

/-! ## Claim C5: candidate filtering, scoring, ordering, limiting -/

/-- Everything the collection loop of `findSimilarPatterns` appends comes
from the store, carries the similarity score as its attached key, and
respects the `onlySuccessful` filter. -/
theorem scoreStep_foldl_mem (st : Store) (intent : String) (onlySucc : Bool)
    (ids : List Nat) (acc : List (ExecutionRecord × Nat))
    (pr : ExecutionRecord × Nat)
    (hpr : pr ∈ ids.foldl (scoreStep st intent onlySucc) acc) :
    pr ∈ acc ∨
      (pr.1 ∈ st.patterns ∧ pr.2 = similarityScore intent pr.1 ∧
        (onlySucc = true → pr.1.success = true)) := by
  induction ids generalizing acc with
  | nil => exact Or.inl hpr
  | cons i rest ih =>
    rw [List.foldl_cons] at hpr
    rcases ih (scoreStep st intent onlySucc acc i) hpr with h | h
    · unfold scoreStep at h
      rcases hfind : st.patterns.find? (fun p => p.id == i) with _ | p
      · rw [hfind] at h
        exact Or.inl h
      · rw [hfind] at h
        have h2 : pr ∈ (if (onlySucc && !p.success) = true then acc
            else acc ++ [(p, similarityScore intent p)]) := h
        by_cases hcond : (onlySucc && !p.success) = true
        · rw [if_pos hcond] at h2
          exact Or.inl h2
        · rw [if_neg hcond] at h2
          rcases List.mem_append.mp h2 with h' | h'
          · exact Or.inl h'
          · rcases List.mem_singleton.mp h' with rfl
            refine Or.inr ⟨List.mem_of_find?_eq_some hfind, rfl, ?_⟩
            intro hos
            subst hos
            cases hsucc : p.success
            · exact absurd (by simp [hsucc]) hcond
            · rfl
    · exact Or.inr h

/-- C5: for every store state and call, the result of `findSimilarPatterns`
holds at most `limit` records, only successful ones when `onlySuccessful`
is requested, drawn from the stored records, in descending order of the
score `10 × (stored keywords occurring among the intent's keywords) +
successCount`. -/
theorem claim_C5_scoring (st : Store) (intent : String) (opts : FindOptions) :
    (findSimilarPatterns st intent opts).length ≤ opts.limit.getD 5 ∧
    (opts.onlySuccessful.getD true = true →
      ∀ r ∈ findSimilarPatterns st intent opts, r.success = true) ∧
    (findSimilarPatterns st intent opts).Pairwise
      (fun a b => similarityScore intent b ≤ similarityScore intent a) ∧
    (∀ r ∈ findSimilarPatterns st intent opts, r ∈ st.patterns) := by
  have hmem : ∀ pr ∈ (sortByDesc (fun pr : ExecutionRecord × Nat => pr.2)
      ((candidateIds st intent opts).foldl
        (scoreStep st intent (opts.onlySuccessful.getD true)) [])),
      pr.1 ∈ st.patterns ∧ pr.2 = similarityScore intent pr.1 ∧
        (opts.onlySuccessful.getD true = true → pr.1.success = true) := by
    intro pr hpr
    have h := (mem_sortByDesc _ pr _).mp hpr
    rcases scoreStep_foldl_mem st intent _ _ [] pr h with h' | h'
    · cases h'
    · exact h'
  refine ⟨?_, ?_, ?_, ?_⟩
  · calc (findSimilarPatterns st intent opts).length
        = ((sortByDesc (fun pr : ExecutionRecord × Nat => pr.2)
            ((candidateIds st intent opts).foldl
              (scoreStep st intent (opts.onlySuccessful.getD true)) [])).take
                (opts.limit.getD 5)).length := List.length_map _ _
      _ ≤ opts.limit.getD 5 := List.length_take_le _ _
  · intro hos r hr
    rcases List.mem_map.mp hr with ⟨pr, hpr, hpr1⟩
    have := hmem pr (List.mem_of_mem_take hpr)
    rw [← hpr1] at *
    exact this.2.2 hos
  · apply List.pairwise_map.mpr
    apply List.Pairwise.sublist (List.take_sublist _ _)
    apply List.Pairwise.imp_of_mem ?_ (sortByDesc_pairwise (fun pr : ExecutionRecord × Nat => pr.2) _)
    intro a b ha hb hle
    have ha' := (hmem a ha).2.1
    have hb' := (hmem b hb).2.1
    rw [← ha', ← hb']
    exact hle
  · intro r hr
    rcases List.mem_map.mp hr with ⟨pr, hpr, hpr1⟩
    have := hmem pr (List.mem_of_mem_take hpr)
    rw [← hpr1]
    exact this.1

/-- Witness for C5 on the two-record example store: the unfiltered call
returns at most five records and its first record is a successful one. -/
theorem claim_C5_scoring_witness :
    (findSimilarPatterns exampleStore "zzzz"
      { app := none, action := none, limit := none, onlySuccessful := none }).length ≤ 5 ∧
    ((findSimilarPatterns exampleStore "zzzz"
      { app := none, action := none, limit := none, onlySuccessful := none }).get
        ⟨0, by decide⟩).success = true := by
  have h := claim_C5_scoring exampleStore "zzzz"
    { app := none, action := none, limit := none, onlySuccessful := none }
  exact ⟨h.1, h.2.1 (by decide) _ (List.get_mem _ 0 (by decide))⟩

/-! ## Claim C9: per-target lookup -/

theorem lookupIdx_cons (k0 : String) (ids0 : List Nat) (t : List (String × List Nat))
    (k' : String) :
    lookupIdx ((k0, ids0) :: t) k' = if k0 = k' then ids0 else lookupIdx t k' := by
  by_cases h : k0 = k'
  · subst h
    simp [lookupIdx, List.find?_cons]
  · have hb : (k0 == k') = false := beq_eq_false_iff_ne.mpr h
    simp [lookupIdx, List.find?_cons, hb, h]

theorem lookupIdx_nil (k' : String) : lookupIdx [] k' = [] := rfl

theorem lookupIdx_pushId (idx : List (String × List Nat)) (k k' : String) (i : Nat) :
    lookupIdx (pushId idx k i) k' =
      if k' = k then lookupIdx idx k ++ [i] else lookupIdx idx k' := by
  induction idx with
  | nil =>
    show lookupIdx [(k, [i])] k' = _
    rw [lookupIdx_cons, lookupIdx_nil, lookupIdx_nil]
    by_cases h : k' = k
    · subst h
      simp
    · have h2 : ¬ k = k' := fun hc => h hc.symm
      simp [h, h2]
  | cons kv t ih =>
    rcases kv with ⟨k0, ids0⟩
    show lookupIdx (if k0 = k then (k0, ids0 ++ [i]) :: t else (k0, ids0) :: pushId t k i) k' = _
    by_cases h0 : k0 = k
    · subst h0
      rw [if_pos rfl]
      simp only [lookupIdx_cons]
      by_cases h1 : k0 = k'
      · subst h1
        simp
      · have h2 : ¬ k' = k0 := fun hc => h1 hc.symm
        simp [h1, h2]
    · rw [if_neg h0]
      simp only [lookupIdx_cons, ih]
      by_cases h1 : k0 = k'
      · subst h1
        have h2 : ¬ k0 = k := h0
        simp [h2]
      · simp [h0, h1]

theorem mem_lookupIdx_pushId (idx : List (String × List Nat)) (k k' : String) (i j : Nat)
    (h : j ∈ lookupIdx idx k') : j ∈ lookupIdx (pushId idx k i) k' := by
  rw [lookupIdx_pushId]
  by_cases hk : k' = k
  · subst hk
    rw [if_pos rfl]
    exact List.mem_append_left _ h
  · rw [if_neg hk]
    exact h

theorem mem_lookupIdx_foldl_pushId (keys : List String) (rid : Nat)
    (idx : List (String × List Nat)) (i : Nat) (k' : String)
    (h : i ∈ lookupIdx idx k') :
    i ∈ lookupIdx (keys.foldl (fun ix a => pushId ix (toLowerStr a) rid) idx) k' := by
  induction keys generalizing idx with
  | nil => exact h
  | cons a rest ih => exact ih _ (mem_lookupIdx_pushId _ _ _ _ _ h)

theorem mem_lookupIdx_foldl_pushId_self (keys : List String) (rid : Nat)
    (idx : List (String × List Nat)) (t : String) (ht : t ∈ keys) :
    rid ∈ lookupIdx (keys.foldl (fun ix a => pushId ix (toLowerStr a) rid) idx)
      (toLowerStr t) := by
  induction keys generalizing idx with
  | nil => cases ht
  | cons a rest ih =>
    rcases List.mem_cons.mp ht with h | h
    · subst h
      rw [List.foldl_cons]
      apply mem_lookupIdx_foldl_pushId
      rw [lookupIdx_pushId, if_pos rfl]
      exact List.mem_append_right _ (List.mem_singleton_self _)
    · exact ih _ h

theorem find?_patterns_append_fresh (patterns : List ExecutionRecord) (r : ExecutionRecord)
    (hfresh : ∀ p ∈ patterns, p.id ≠ r.id) :
    (patterns ++ [r]).find? (fun p => p.id == r.id) = some r := by
  induction patterns with
  | nil => simp [List.find?]
  | cons p t ih =>
    rw [List.cons_append, List.find?_cons]
    have hne : (p.id == r.id) = false := by
      simp [hfresh p (List.mem_cons_self p t)]
    rw [hne]
    exact ih (fun q hq => hfresh q (List.mem_cons_of_mem p hq))

/-- The create branch of `logExecution`: the new record gets the fresh id,
is appended to the record list, and its id is pushed into the app buckets
of all its derived targets. -/
theorem logExecution_create_fields (st : Store) (now : Nat) (intent script : String)
    (success : Bool) (result : String)
    (hfind : findExisting st.patterns script = none) :
    (logExecution st now intent script success result).1.id = st.nextId ∧
    (logExecution st now intent script success result).2.patterns =
      st.patterns ++ [(logExecution st now intent script success result).1] ∧
    (logExecution st now intent script success result).2.byApp =
      (extractApps script).foldl
        (fun ix a => pushId ix (toLowerStr a) st.nextId) st.byApp := by
  unfold logExecution
  rw [hfind]
  exact ⟨rfl, rfl, rfl⟩

/-- C9: `getPatternsForApp` always returns records in descending order of
`successCount`, and a `logExecution` call that creates a new record makes
it visible through `getPatternsForApp t` for every derived target `t` of
its script. -/
theorem claim_C9_byTarget (st : Store) (app : String) (now : Nat) (intent script : String)
    (success : Bool) (result : String) (t : String)
    (hfind : findExisting st.patterns script = none)
    (hfresh : ∀ r ∈ st.patterns, r.id < st.nextId)
    (ht : t ∈ extractApps script) :
    (getPatternsForApp st app).Pairwise (fun a b => b.successCount ≤ a.successCount) ∧
    (logExecution st now intent script success result).1 ∈
      getPatternsForApp (logExecution st now intent script success result).2 t := by
  obtain ⟨hid, hpat, happ⟩ :=
    logExecution_create_fields st now intent script success result hfind
  refine ⟨sortByDesc_pairwise _ _, ?_⟩
  unfold getPatternsForApp
  apply (mem_sortByDesc _ _ _).mpr
  apply List.mem_filterMap.mpr
  refine ⟨st.nextId, ?_, ?_⟩
  · rw [happ]
    exact mem_lookupIdx_foldl_pushId_self _ _ _ _ ht
  · rw [hpat, ← hid]
    apply find?_patterns_append_fresh
    intro p hp
    have := hfresh p hp
    rw [hid]
    omega

/-- Witness for C9: the first log into the empty store is visible through
`getPatternsForApp "Finder"`. -/
theorem claim_C9_byTarget_witness :
    (logExecution emptyStore 0 "open home folder"
        "tell application \"Finder\" to open home" true "ok").1 ∈
      getPatternsForApp
        (logExecution emptyStore 0 "open home folder"
          "tell application \"Finder\" to open home" true "ok").2 "Finder" :=
  (claim_C9_byTarget emptyStore "Finder" 0 "open home folder"
    "tell application \"Finder\" to open home" true "ok" "Finder"
    (by decide) (by decide) (by decide)).2

/-! ## Claims C3 and C4: the write path -/

/-- Unfolding the update branch of `logExecution`. -/
theorem log_update (st : Store) (now : Nat) (intent script : String) (success : Bool)
    (result : String) (existing : ExecutionRecord)
    (hfind : findExisting st.patterns script = some existing) :
    logExecution st now intent script success result =
      (updatedRecord existing now success result,
       { st with
          patterns := setRecord st.patterns (updatedRecord existing now success result) }) := by
  unfold logExecution
  rw [hfind]
  rfl

/-- Unfolding the create branch of `logExecution`. -/
theorem log_create (st : Store) (now : Nat) (intent script : String) (success : Bool)
    (result : String) (hfind : findExisting st.patterns script = none) :
    logExecution st now intent script success result =
      (newRecord st now intent script success result,
       { patterns := st.patterns ++ [newRecord st now intent script success result],
         byApp := (extractApps script).foldl
           (fun ix a => pushId ix (toLowerStr a) st.nextId) st.byApp,
         byAction := (extractActions script).foldl
           (fun ix a => pushId ix a st.nextId) st.byAction,
         byCategory := pushId st.byCategory
           (categoryKey (categorize (extractApps script) (extractActions script))) st.nextId,
         byKeyword := (extractKeywords (intent ++ " " ++ script)).foldl
           (fun ix k => pushId ix k st.nextId) st.byKeyword,
         nextId := st.nextId + 1 }) := by
  unfold logExecution
  rw [hfind]
  rfl

/-- `Map.set` on a key that is present (uniquely, by the id-`Nodup`
representation invariant) replaces that entry in place. -/
theorem setRecord_split (patterns : List ExecutionRecord) (existing r : ExecutionRecord)
    (hmem : existing ∈ patterns)
    (hnodup : (patterns.map (fun p => p.id)).Nodup)
    (hid : r.id = existing.id) :
    ∃ l1 l2, patterns = l1 ++ existing :: l2 ∧ setRecord patterns r = l1 ++ r :: l2 := by
  induction patterns with
  | nil => cases hmem
  | cons p t ih =>
    rw [List.map_cons, List.nodup_cons] at hnodup
    by_cases hp : p.id = r.id
    · have hpe : p = existing := by
        rcases List.mem_cons.mp hmem with h | h
        · exact h.symm
        · exfalso
          apply hnodup.1
          rw [hp, hid]
          exact List.mem_map_of_mem _ h
      refine ⟨[], t, ?_, ?_⟩
      · rw [hpe]
        rfl
      · show setRecord (p :: t) r = r :: t
        unfold setRecord
        rw [if_pos hp]
    · have hex : existing ∈ t := by
        rcases List.mem_cons.mp hmem with h | h
        · exfalso
          apply hp
          rw [h] at hid
          exact hid.symm
        · exact h
      obtain ⟨l1, l2, heq, hset⟩ := ih hex hnodup.2
      refine ⟨p :: l1, l2, ?_, ?_⟩
      · rw [List.cons_append, heq]
      · show setRecord (p :: t) r = p :: l1 ++ r :: l2
        unfold setRecord
        rw [if_neg hp, hset]
        rfl

/-- `logExecution` preserves the store representation invariant. -/
theorem log_preserves_WF (st : Store) (now : Nat) (intent script : String) (success : Bool)
    (result : String) (hwf : WFStore st) :
    WFStore (logExecution st now intent script success result).2 := by
  obtain ⟨hnodup, hlt, hfp⟩ := hwf
  rcases hfind : findExisting st.patterns script with _ | existing
  · rw [log_create st now intent script success result hfind]
    have hnofp : ∀ p ∈ st.patterns, normalizeScript p.script ≠ normalizeScript script := by
      intro p hp
      have := List.find?_eq_none.mp hfind p hp
      simpa using this
    refine ⟨?_, ?_, ?_⟩
    · simp only [List.map_append, List.map_cons, List.map_nil]
      rw [List.nodup_append]
      refine ⟨hnodup, List.nodup_singleton _, ?_⟩
      intro a ha
      rcases List.mem_map.mp ha with ⟨p, hp, hpa⟩
      have hplt := hlt p hp
      rw [List.mem_singleton, ← hpa]
      show ¬ p.id = st.nextId
      omega
    · intro r hr
      rcases List.mem_append.mp hr with h | h
      · have := hlt r h
        show r.id < st.nextId + 1
        omega
      · rcases List.mem_singleton.mp h with rfl
        show st.nextId < st.nextId + 1
        omega
    · unfold UniqueFingerprints
      rw [List.pairwise_append]
      refine ⟨hfp, List.pairwise_singleton _ _, ?_⟩
      intro a ha b hb
      rcases List.mem_singleton.mp hb with rfl
      exact hnofp a ha
  · have hmem := List.mem_of_find?_eq_some hfind
    obtain ⟨l1, l2, heq, hset⟩ := setRecord_split st.patterns existing
      (updatedRecord existing now success result) hmem hnodup rfl
    rw [log_update st now intent script success result existing hfind]
    refine ⟨?_, ?_, ?_⟩
    · show ((setRecord st.patterns _).map (fun p => p.id)).Nodup
      rw [hset]
      have : (l1 ++ existing :: l2).map (fun p => p.id) =
          (l1 ++ updatedRecord existing now success result :: l2).map (fun p => p.id) := by
        simp [updatedRecord]
      rw [← this, ← heq]
      exact hnodup
    · intro r hr
      show r.id < st.nextId
      rw [hset] at hr
      rcases List.mem_append.mp hr with h | h
      · exact hlt r (heq ▸ List.mem_append_left _ h)
      · rcases List.mem_cons.mp h with rfl | h
        · exact hlt existing hmem
        · exact hlt r (heq ▸ List.mem_append_right _ (List.mem_cons_of_mem _ h))
    · unfold UniqueFingerprints
      show (setRecord st.patterns _).Pairwise _
      rw [hset]
      unfold UniqueFingerprints at hfp
      rw [heq] at hfp
      have h1 : ((l1 ++ existing :: l2).map
          (fun p => normalizeScript p.script)).Pairwise Ne :=
        List.pairwise_map.mpr hfp
      have hmap : (l1 ++ existing :: l2).map (fun p => normalizeScript p.script) =
          (l1 ++ updatedRecord existing now success result :: l2).map
              (fun p => normalizeScript p.script) := by
        simp [updatedRecord]
      rw [hmap] at h1
      exact List.pairwise_map.mp h1

/-- Every store reachable by logging from the empty store satisfies the
representation invariant. -/
theorem reachable_wf (st : Store) (h : Reachable st) : WFStore st := by
  induction h with
  | empty =>
    exact ⟨List.nodup_nil, fun r hr => absurd hr (List.not_mem_nil r), List.Pairwise.nil⟩
  | log st now intent script success result _ ih =>
    exact log_preserves_WF st now intent script success result ih

/-- C3: along any sequence of `logExecution` calls from the empty store, at
most one record exists per fingerprint; logging a script whose fingerprint
matches a stored record keeps the id set of the record list unchanged
(mutation in place, no second record), resolves with the matched record's
id, and leaves all four indices — hence every bucket membership — exactly
as they were. -/
theorem claim_C3_fingerprint_invariant (st : Store) (hst : Reachable st) (now : Nat)
    (intent script : String) (success : Bool) (result : String)
    (existing : ExecutionRecord)
    (hfind : findExisting st.patterns script = some existing) :
    UniqueFingerprints st ∧
    (logExecution st now intent script success result).2.patterns.map (fun r => r.id) =
      st.patterns.map (fun r => r.id) ∧
    (logExecution st now intent script success result).1.id = existing.id ∧
    (logExecution st now intent script success result).2.byApp = st.byApp ∧
    (logExecution st now intent script success result).2.byAction = st.byAction ∧
    (logExecution st now intent script success result).2.byCategory = st.byCategory ∧
    (logExecution st now intent script success result).2.byKeyword = st.byKeyword := by
  obtain ⟨hnodup, hlt, hfp⟩ := reachable_wf st hst
  have hmem := List.mem_of_find?_eq_some hfind
  obtain ⟨l1, l2, heq, hset⟩ := setRecord_split st.patterns existing
    (updatedRecord existing now success result) hmem hnodup rfl
  rw [log_update st now intent script success result existing hfind]
  refine ⟨hfp, ?_, rfl, rfl, rfl, rfl, rfl⟩
  show (setRecord st.patterns (updatedRecord existing now success result)).map
    (fun r => r.id) = st.patterns.map (fun r => r.id)
  rw [hset, heq]
  simp [updatedRecord]

/-- Witness for C3: after one log, the store has unique fingerprints and a
re-log of a case-variant of the same script leaves the app index
untouched. -/
theorem claim_C3_fingerprint_invariant_witness :
    UniqueFingerprints (logExecution emptyStore 0 "play music"
      "tell application \"Music\" to play" true "ok").2 ∧
    (logExecution (logExecution emptyStore 0 "play music"
        "tell application \"Music\" to play" true "ok").2
      1 "again" "TELL application \"Music\"  to play" true "ok").2.byApp =
      (logExecution emptyStore 0 "play music"
        "tell application \"Music\" to play" true "ok").2.byApp := by
  have h := claim_C3_fingerprint_invariant
    (logExecution emptyStore 0 "play music" "tell application \"Music\" to play" true "ok").2
    (Reachable.log emptyStore 0 "play music" "tell application \"Music\" to play" true "ok"
      Reachable.empty)
    1 "again" "TELL application \"Music\"  to play" true "ok"
    (logExecution emptyStore 0 "play music" "tell application \"Music\" to play" true "ok").1
    (by decide)
  exact ⟨h.1, h.2.2.2.1⟩

/-- C4: a log whose script fingerprint matches a stored record bumps
`successCount` by exactly one on success and leaves it unchanged on
failure; in particular two success-logs of whitespace/case variants of one
script, starting from the empty store, leave a single stored record with
`successCount = 2`. -/
theorem claim_C4_successCount (st : Store) (now : Nat) (intent script : String)
    (success : Bool) (result : String) (existing : ExecutionRecord)
    (hfind : findExisting st.patterns script = some existing) :
    ((logExecution st now intent script success result).1.successCount =
      if success then existing.successCount + 1 else existing.successCount) ∧
    (logExecution (logExecution emptyStore 0 "play music"
        "tell application \"Music\" to play" true "ok").2
      1 "play music" "Tell  application \"Music\"  to  PLAY" true "ok").1.successCount = 2 ∧
    (logExecution (logExecution emptyStore 0 "play music"
        "tell application \"Music\" to play" true "ok").2
      1 "play music" "Tell  application \"Music\"  to  PLAY" true "ok").2.patterns.length
      = 1 := by
  refine ⟨?_, by decide, by decide⟩
  rw [log_update st now intent script success result existing hfind]
  rfl

/-- Witness for C4: the two-logs scenario reached through the theorem with
its fingerprint-match hypothesis discharged on the concrete store. -/
theorem claim_C4_successCount_witness :
    (logExecution (logExecution emptyStore 0 "play music"
        "tell application \"Music\" to play" true "ok").2
      1 "play music" "Tell  application \"Music\"  to  PLAY" true "ok").1.successCount = 2 :=
  (claim_C4_successCount
    (logExecution emptyStore 0 "play music" "tell application \"Music\" to play" true "ok").2
    1 "play music" "Tell  application \"Music\"  to  PLAY" true "ok"
    (logExecution emptyStore 0 "play music" "tell application \"Music\" to play" true "ok").1
    (by decide)).2.1

/-! ## Claim C2: the empty app∩action intersection is NOT accepted -/

/-- Counterexample to C2 on the two-record example store: the `finder` app
bucket and the `play` action bucket are both nonempty, their intersection
is empty, yet `findSimilarPatterns` does not return the empty list — the
size-zero guard sends it through the keyword fallback and then the whole
record set. -/
theorem claim_C2_cex :
    lookupIdx exampleStore.byApp (toLowerStr "Finder") ≠ [] ∧
    lookupIdx exampleStore.byAction (toLowerStr "play") ≠ [] ∧
    dedupIds ((lookupIdx exampleStore.byAction (toLowerStr "play")).filter
      (fun i => (addIds [] (lookupIdx exampleStore.byApp (toLowerStr "Finder"))).contains i))
      = [] ∧
    findSimilarPatterns exampleStore "zzzz"
      { app := some "Finder", action := some "play", limit := none, onlySuccessful := none }
      ≠ [] := by
  exact ⟨by decide, by decide, by decide, by decide⟩

/-- C2 (amended): when both a target and an action are given, both buckets
are nonempty and the intersection is empty, the call behaves as if neither
filter had been given — it falls back to keyword matching and then to the
entire record set. -/
theorem claim_C2_empty_intersection (st : Store) (intent : String) (app action : String)
    (limit : Option Nat) (onlySucc : Option Bool)
    (happ : addIds [] (lookupIdx st.byApp (toLowerStr app)) ≠ [])
    (hempty : dedupIds ((lookupIdx st.byAction (toLowerStr action)).filter
      (fun i => (addIds [] (lookupIdx st.byApp (toLowerStr app))).contains i)) = []) :
    findSimilarPatterns st intent
      { app := some app, action := some action, limit := limit, onlySuccessful := onlySucc } =
      findSimilarPatterns st intent
      { app := none, action := none, limit := limit, onlySuccessful := onlySucc } := by
  suffices h : candidateIds st intent
      { app := some app, action := some action, limit := limit, onlySuccessful := onlySucc } =
      candidateIds st intent
      { app := none, action := none, limit := limit, onlySuccessful := onlySucc } by
    unfold findSimilarPatterns
    rw [h]
  unfold candidateIds
  dsimp only
  rw [if_pos (show (addIds [] (lookupIdx st.byApp (toLowerStr app))).length > 0 from
    List.length_pos.mpr happ), hempty]

/-- Witness for the amended C2 on the example store. -/
theorem claim_C2_empty_intersection_witness :
    findSimilarPatterns exampleStore "zzzz"
      { app := some "Finder", action := some "play", limit := none, onlySuccessful := none } =
      findSimilarPatterns exampleStore "zzzz"
      { app := none, action := none, limit := none, onlySuccessful := none } :=
  claim_C2_empty_intersection exampleStore "zzzz" "Finder" "play" none none
    (by decide) (by decide)

/-! ## Claim C7: analysis of "Error -600" -/

theorem charsStartWith_append (sub l : List Char) :
    charsStartWith sub (sub ++ l) = true := by
  induction sub with
  | nil => rfl
  | cons c cs ih => simp [charsStartWith, ih]

theorem containsChars_here (sub l2 : List Char) :
    containsChars sub (sub ++ l2) = true := by
  have h := charsStartWith_append sub l2
  rcases hc : sub ++ l2 with _ | ⟨c, cs⟩ <;> rw [hc] at h <;> simp [containsChars, h]

theorem containsChars_append (sub l1 l2 : List Char) :
    containsChars sub (l1 ++ (sub ++ l2)) = true := by
  induction l1 with
  | nil => exact containsChars_here sub l2
  | cons c cs ih =>
    rw [List.cons_append]
    simp [containsChars, ih]

/-- Whenever the activation fix fires, the produced script contains the
injected `activate` line. -/
theorem appNotRunningFix_contains (script s : String)
    (h : appNotRunningFix script = some s) : containsStr s "activate" = true := by
  unfold appNotRunningFix at h
  rcases htfs : tellFixScan script.toList with _ | ⟨before, header, after⟩
  · rw [htfs] at h
    simp at h
  · rw [htfs] at h
    simp only [Option.some.injEq] at h
    subst h
    show containsChars "activate".toList
      (before ++ header ++ '\n' :: '\t' :: ("activate".toList ++ '\n' :: after)) = true
    have hassoc : before ++ header ++ '\n' :: '\t' :: ("activate".toList ++ '\n' :: after) =
        (before ++ header ++ ['\n', '\t']) ++ ("activate".toList ++ ('\n' :: after)) := by
      simp
    rw [hassoc]
    exact containsChars_append _ _ _

/-- Counterexample to C7 as stated: for the script `foo` (no
`tell application` header), analyzing "Error -600" classifies
app-not-running with high confidence but the fixed script is `null`, so it
contains no activation step. -/
theorem claim_C7_cex :
    (analyzeFailure emptyStore "foo" "Error -600").errorType = ErrorType.appNotRunning ∧
    (analyzeFailure emptyStore "foo" "Error -600").confidence = Confidence.high ∧
    (analyzeFailure emptyStore "foo" "Error -600").fixedScript = none := by
  exact ⟨by decide, by decide, by decide⟩

/-- C7 (amended): for every store and script, analyzing "Error -600" yields
errorType app_not_running with high confidence, and the returned
fixedScript is the activation fix — which, whenever it exists (the script
has a `tell application "…"` header line), contains an injected activation
step. -/
theorem claim_C7_app_not_running (st : Store) (script : String) :
    (analyzeFailure st script "Error -600").errorType = ErrorType.appNotRunning ∧
    (analyzeFailure st script "Error -600").confidence = Confidence.high ∧
    (analyzeFailure st script "Error -600").fixedScript = appNotRunningFix script ∧
    (∀ s, appNotRunningFix script = some s → containsStr s "activate" = true) :=
  ⟨rfl, rfl, rfl, fun s h => appNotRunningFix_contains script s h⟩

/-- Witness for C7 on a script with a tell header: the fix exists and the
fixed script contains `activate`. -/
theorem claim_C7_app_not_running_witness :
    (analyzeFailure emptyStore "tell application \"Music\"\nplay" "Error -600").errorType =
      ErrorType.appNotRunning ∧
    containsStr "tell application \"Music\"\n\tactivate\nplay" "activate" = true := by
  have h := claim_C7_app_not_running emptyStore "tell application \"Music\"\nplay"
  exact ⟨h.1, h.2.2.2 "tell application \"Music\"\n\tactivate\nplay" (by decide)⟩

/-! ## Claim C8: first-applicable taxonomy walk -/

/-- `find?` resolves to the first element satisfying the predicate when
everything before it fails. -/
theorem find?_eq_of_first (l : List α) (p : α → Bool) (i : Nat) (e : α)
    (hget : l.get? i = some e) (hp : p e = true)
    (hbefore : ∀ ej ∈ l.take i, p ej = false) :
    l.find? p = some e := by
  induction l generalizing i with
  | nil => cases hget
  | cons a t ih =>
    cases i with
    | zero =>
      rw [List.get?_cons_zero] at hget
      injection hget with hae
      subst hae
      simp [List.find?_cons, hp]
    | succ j =>
      have ha : p a = false := hbefore a (by simp)
      rw [List.get?_cons_succ] at hget
      rw [List.find?_cons, ha]
      exact ih j hget (fun ej hej => hbefore ej (by simp [List.take_succ_cons, hej]))

/-- Counterexample to C8 as stated: on an error message matching no
taxonomy entry the analysis is the unknown/low fallback, but `rootCause`
is not the raw error message — it is prefixed. -/
theorem claim_C8_cex :
    (∀ e ∈ ERROR_PATTERNS, entryMatches e "zzzz" = false) ∧
    (analyzeFailure emptyStore "x" "zzzz").errorType = ErrorType.unknown ∧
    (analyzeFailure emptyStore "x" "zzzz").rootCause ≠ "zzzz" ∧
    (analyzeFailure emptyStore "x" "zzzz").rootCause = "Unknown error: zzzz" := by
  exact ⟨by decide, by decide, by decide, by decide⟩

/-- C8 (amended): the analyzer walks the taxonomy in fixed order and the
first matching entry decides the result with confidence high; when no
entry matches, the result is errorType unknown, confidence low, the
generic suggestions, no fixed script, and rootCause equal to the raw
error message prefixed with "Unknown error: ". -/
theorem claim_C8_first_applicable (st : Store) (script msg : String) :
    (∀ i e, ERROR_PATTERNS.get? i = some e → entryMatches e msg = true →
      (∀ ej ∈ ERROR_PATTERNS.take i, entryMatches ej msg = false) →
      (analyzeFailure st script msg).errorType = e.type ∧
      (analyzeFailure st script msg).confidence = Confidence.high) ∧
    ((∀ e ∈ ERROR_PATTERNS, entryMatches e msg = false) →
      analyzeFailure st script msg =
        { errorType := ErrorType.unknown
          rootCause := "Unknown error: " ++ msg
          suggestions := genericSuggestions (extractAppFromScript script)
          relatedSuccessfulPattern := relatedPattern st script
          fixedScript := none
          confidence := Confidence.low }) := by
  constructor
  · intro i e hget hp hbefore
    have hfm : firstMatchingEntry msg = some e :=
      find?_eq_of_first ERROR_PATTERNS (fun e => entryMatches e msg) i e hget hp hbefore
    unfold analyzeFailure
    rw [hfm]
    exact ⟨rfl, rfl⟩
  · intro hall
    have hfm : firstMatchingEntry msg = none :=
      List.find?_eq_none.mpr (fun e he => by simp [hall e he])
    unfold analyzeFailure
    rw [hfm]

/-- Witness for C8: the timeout entry (index 7) fires first on "timed out",
and "zzzz" matches nothing, giving the unknown fallback. -/
theorem claim_C8_first_applicable_witness :
    (analyzeFailure emptyStore "x" "timed out").errorType = ErrorType.timeout ∧
    (analyzeFailure emptyStore "x" "timed out").confidence = Confidence.high ∧
    analyzeFailure emptyStore "x" "zzzz" =
      { errorType := ErrorType.unknown
        rootCause := "Unknown error: zzzz"
        suggestions := genericSuggestions none
        relatedSuccessfulPattern := none
        fixedScript := none
        confidence := Confidence.low } := by
  have h1 := (claim_C8_first_applicable emptyStore "x" "timed out").1 7
    (ERROR_PATTERNS.get ⟨7, by decide⟩) (List.get?_eq_get (by decide))
    (by decide) (by decide)
  have h2 := (claim_C8_first_applicable emptyStore "x" "zzzz").2 (by decide)
  exact ⟨h1.1, h1.2, h2⟩

end AppleScriptMcp
